import Mathlib

/-!
Verification development for the `sanofi_cryoet` transfer pipeline
(`src/sanofi_cryoet/db_transfer.py`).

The Python module is shallowly embedded: the filesystem state observed by the
script is an explicit structure, subprocess execution is a trace of emitted
actions plus an exit-code oracle, and Python exceptions are modelled with
`Except`.  Machine-level details (actual file contents being copied, wall-clock
time, logging text) are outside the scope of the claims and are not modelled.
-/

set_option maxRecDepth 4000

namespace SanofiCryoET

/-! ### Decimal numerals

Python's `f"{e}-{i+1}"` renders `i+1` with `str`, i.e. as a standard decimal
numeral; the Lean-side model is `Nat.repr`.  The claims about identifier
distinctness need injectivity of `Nat.repr`, proved here via an explicit
digit-list function `decChars` and a valuation round trip. -/

/-- Decimal digit characters of `n`, most significant first. -/
def decChars (n : Nat) : List Char :=
  if _h : n < 10 then [Nat.digitChar n]
  else decChars (n / 10) ++ [Nat.digitChar (n % 10)]
decreasing_by exact Nat.div_lt_self (by omega) (by omega)

theorem toDigitsCore_eq_decChars :
    ∀ (n fuel : Nat) (ds : List Char), n < fuel →
      Nat.toDigitsCore 10 fuel n ds = decChars n ++ ds := by
  intro n
  induction n using Nat.strong_induction_on with
  | _ n ih =>
    intro fuel ds hf
    match fuel, hf with
    | fuel + 1, hf =>
      rw [Nat.toDigitsCore]
      by_cases h10 : n < 10
      · have hz : n / 10 = 0 := Nat.div_eq_of_lt h10
        have hm : n % 10 = n := Nat.mod_eq_of_lt h10
        rw [if_pos hz]
        conv_rhs => rw [decChars]
        rw [dif_pos h10, hm, List.singleton_append]
      · have hne : ¬ n / 10 = 0 := by omega
        have hlt : n / 10 < n := Nat.div_lt_self (by omega) (by omega)
        rw [if_neg hne, ih (n / 10) hlt fuel (Nat.digitChar (n % 10) :: ds) (by omega)]
        conv_rhs => rw [decChars]
        rw [dif_neg h10, List.append_assoc, List.singleton_append]

theorem repr_eq_decChars (n : Nat) : Nat.repr n = String.mk (decChars n) := by
  show (Nat.toDigits 10 n).asString = String.mk (decChars n)
  rw [Nat.toDigits, toDigitsCore_eq_decChars n (n + 1) [] (Nat.lt_succ_self n),
    List.append_nil]
  rfl

/-- Numeric value of a digit character. -/
def charVal (c : Char) : Nat := c.toNat - 48

/-- Valuation of a digit list, most significant first. -/
def listVal (l : List Char) : Nat := l.foldl (fun a c => 10 * a + charVal c) 0

theorem charVal_digitChar {n : Nat} (h : n < 10) :
    charVal (Nat.digitChar n) = n := by
  interval_cases n <;> rfl

theorem listVal_append_singleton (l : List Char) (c : Char) :
    listVal (l ++ [c]) = 10 * listVal l + charVal c := by
  simp [listVal, List.foldl_append]

theorem listVal_decChars : ∀ n : Nat, listVal (decChars n) = n := by
  intro n
  induction n using Nat.strong_induction_on with
  | _ n ih =>
    by_cases h10 : n < 10
    · rw [decChars, dif_pos h10]
      show 10 * 0 + charVal (Nat.digitChar n) = n
      rw [charVal_digitChar h10]; omega
    · rw [decChars, dif_neg h10, listVal_append_singleton,
        ih (n / 10) (Nat.div_lt_self (by omega) (by omega)),
        charVal_digitChar (Nat.mod_lt n (by omega))]
      omega

theorem decChars_injective : Function.Injective decChars := by
  intro a b h
  rw [← listVal_decChars a, ← listVal_decChars b, h]

theorem natRepr_injective : Function.Injective Nat.repr := by
  intro a b h
  rw [repr_eq_decChars, repr_eq_decChars] at h
  exact decChars_injective (by injection h)

theorem natRepr_data (n : Nat) : (Nat.repr n).data = decChars n := by
  rw [repr_eq_decChars]

/-! ### Python string primitives

`pat in line` is substring containment, modelled as `List.IsInfix` on the
character data.  `line.rstrip()` drops the maximal trailing run of whitespace;
Lean's `Char.isWhitespace` stands in for Python's whitespace class. -/

/-- Model of Python `pat in s` (substring containment). -/
def containsSub (pat s : String) : Prop := pat.data <:+: s.data

instance decContainsSub (pat s : String) : Decidable (containsSub pat s) :=
  List.decidableInfix pat.data s.data

/-- Drop the maximal all-whitespace suffix of a character list. -/
def rstripL (l : List Char) : List Char :=
  (l.reverse.dropWhile Char.isWhitespace).reverse

/-- Model of Python `s.rstrip()`. -/
def rstrip (s : String) : String := String.mk (rstripL s.data)

theorem rstripL_decomp (l : List Char) :
    ∃ w : List Char, l = rstripL l ++ w ∧ ∀ c ∈ w, c.isWhitespace := by
  refine ⟨(l.reverse.takeWhile Char.isWhitespace).reverse, ?_, ?_⟩
  · conv_lhs => rw [← l.reverse_reverse,
      ← List.takeWhile_append_dropWhile (p := Char.isWhitespace) (l := l.reverse)]
    rw [List.reverse_append]
    rfl
  · intro c hc
    rw [List.mem_reverse] at hc
    have := List.all_takeWhile (p := Char.isWhitespace) (l := l.reverse)
    exact (List.all_eq_true.mp this) c hc

theorem infix_of_concat_ws {q l : List Char} {d c : Char}
    (hd : ¬ d.isWhitespace) (hc : c.isWhitespace) :
    q ++ [d] <:+: l ++ [c] → q ++ [d] <:+: l := by
  intro h
  rcases List.infix_concat_iff.mp h with hsuf | hinf
  · rcases hsuf with ⟨t, ht⟩
    have : (t ++ q) ++ [d] = l ++ [c] := by
      rw [List.append_assoc]; exact ht
    have hdc : d = c ∧ t ++ q = l := by
      have hrev := congrArg List.reverse this
      simp only [List.reverse_append, List.reverse_singleton,
        List.singleton_append, List.cons.injEq] at hrev
      exact ⟨hrev.1, by
        have := congrArg List.reverse hrev.2
        simpa using this⟩
    exact absurd (hdc.1 ▸ hc) hd
  · exact hinf

theorem infix_append_ws {q : List Char} {d : Char} (hd : ¬ d.isWhitespace) :
    ∀ (w m : List Char), (∀ c ∈ w, c.isWhitespace) →
      q ++ [d] <:+: m ++ w → q ++ [d] <:+: m := by
  intro w
  induction w using List.reverseRecOn with
  | nil => intro m _ h; simpa using h
  | append_singleton w' c ih =>
    intro m hws h
    rw [← List.append_assoc] at h
    have hc : c.isWhitespace := hws c (by simp)
    have := infix_of_concat_ws hd hc h
    exact ih m (fun x hx => hws x (by simp [hx])) this

theorem containsSub_rstrip {pat : String} {q : List Char} {d : Char}
    (hpat : pat.data = q ++ [d]) (hd : ¬ d.isWhitespace) (s : String) :
    containsSub pat (rstrip s) ↔ containsSub pat s := by
  unfold containsSub rstrip
  rcases rstripL_decomp s.data with ⟨w, hw, hws⟩
  constructor
  · intro h
    have hpre : rstripL s.data <+: s.data := ⟨w, hw.symm⟩
    exact h.trans hpre.isInfix
  · intro h
    rw [hpat] at h ⊢
    exact infix_append_ws hd w (rstripL s.data) hws (by rw [← hw]; exact h)

/-- Model of Python `s.startswith(pre)` / a `{e}*` glob test: list prefix. -/
def isPre [DecidableEq α] : List α → List α → Bool
  | [], _ => true
  | _ :: _, [] => false
  | a :: as, b :: bs => a == b && isPre as bs

/-- Model of Python `s.endswith(suf)` / a `*suf` glob test. -/
def strEndsWith (s suf : String) : Bool :=
  isPre suf.data.reverse s.data.reverse

/-- Model of Python `s.startswith(pre)`. -/
def strStartsWith (s pre : String) : Bool :=
  isPre pre.data s.data

/-- Python `s.split(c)` for a one-character separator, on character lists. -/
def splitChar (c : Char) : List Char → List (List Char)
  | [] => [[]]
  | x :: xs =>
    if x == c then [] :: splitChar c xs
    else
      match splitChar c xs with
      | [] => [[x]]
      | y :: ys => (x :: y) :: ys

/-- Python `s.split(c)` for a one-character separator. -/
def pySplitC (c : Char) (s : String) : List String :=
  (splitChar c s.data).map String.mk

/-- Python `<` on strings: lexicographic by code point. -/
def lexLt : List Char → List Char → Bool
  | [], [] => false
  | [], _ :: _ => true
  | _ :: _, [] => false
  | a :: as, b :: bs =>
    if a.toNat < b.toNat then true
    else if b.toNat < a.toNat then false
    else lexLt as bs

def strLt (a b : String) : Bool := lexLt a.data b.data

/-- Python `<=` on strings (total order: `a <= b` iff not `b < a`). -/
def strLe (a b : String) : Bool := !(strLt b a)

/-- Insert into a sorted list (the comparison Python's sort induces). -/
def insertSorted (x : String) : List String → List String
  | [] => [x]
  | y :: ys => if strLe x y then x :: y :: ys else y :: insertSorted x ys

/-- Python `sorted` on strings. -/
def pySort (l : List String) : List String := l.foldr insertSorted []

/-- Python `max(a, b)` on strings: keep `a` unless `b` is strictly greater. -/
def pyMax2 (a b : String) : String := if strLt a b then b else a

/-- Python `max` over a nonempty list of strings; `""` models the unreached
empty case. -/
def pyMaxStr : List String → String
  | [] => ""
  | x :: xs => xs.foldl pyMax2 x

/-! ### Data model

The filesystem as observed by `db_transfer.py`: the processing directory's
immediate children (each with its visible files and a modification-date string
per file), the repository (`db_dir`) entry names, and oracles for the file
probes the Transfer Engine performs.  Subprocess exit codes are an oracle from
command string to return code. -/

/-- A file visible in a processing directory: its basename and the calendar
date string derived from its mtime (`time.strftime('%Y-%m-%d', gmtime(...))`,
kept abstract as data). -/
structure MFile where
  name : String
  date : String
deriving Repr, DecidableEq

/-- An immediate child of the processing directory.  `x.is_dir` in
`get_procdirs` is a bound method (never called), hence always truthy; a
non-directory still yields an empty `glob`, which `globFiles` reflects. -/
structure DirEntry where
  name : String
  isDir : Bool
  files : List MFile
deriving Repr, DecidableEq

/-- Python exceptions that the embedded functions can raise. -/
inductive Err where
  | invalidDirectory
  | assertionError
  | nameError (n : String)
  | noRowsReturned
  | tooManyRowsReturned
  | typeError
  | fileNotFound
deriving Repr, DecidableEq

instance exceptDecEq {ε α : Type} [DecidableEq ε] [DecidableEq α] :
    DecidableEq (Except ε α) := fun a b =>
  match a, b with
  | Except.ok x, Except.ok y =>
    if h : x = y then isTrue (by rw [h])
    else isFalse (by intro hc; injection hc; exact h (by assumption))
  | Except.error x, Except.error y =>
    if h : x = y then isTrue (by rw [h])
    else isFalse (by intro hc; injection hc; exact h (by assumption))
  | Except.ok _, Except.error _ => isFalse (by intro hc; injection hc)
  | Except.error _, Except.ok _ => isFalse (by intro hc; injection hc)

/-- Filesystem / process state consulted by the pipeline. -/
structure FS where
  procDirExists : Bool
  entries : List DirEntry
  dbEntries : List String
  subframeDirExists : Bool
  readLines : String → Option (List String)
  tiffMdocReadable : String → Bool
  datasetDirExists : String → Bool
  aliFiles : String → List String
  exitCode : String → Int

/-- Module-level bindings of `db_transfer.py`.  `EXT` and `DOSE_FRACTIONS` are
assigned only in the `__main__` block, so when the module is merely imported
they are unbound (`none`); evaluating them then raises `NameError`. -/
structure Globals where
  initials : String
  db_dir : String
  EXT : Option String
  DOSE_FRACTIONS : Option Int

/-- Names bound in the module scope of `db_transfer.py` when it is imported
(its `from .const import ...` line plus its own top-level definitions). -/
def importedModuleNames : List String :=
  ["logging", "os", "Path", "sys", "subprocess", "time", "Optional", "pl",
   "ID_DB", "DB_DIR", "TIMEOUT", "formatter", "CryoETDB"]

/-! ### Identifier Registry (`get_user`) -/

/-- A row of the identifier table (`ids.csv`). -/
structure IdRow where
  id : Int
  name : String
deriving Repr, DecidableEq

/-- `[row["name"] for row in self.all_ids.iter_rows(named=True) if row["id"] == self.id][0]`.
Indexing `[0]` of an empty list raises (`none`). -/
def get_user (all_ids : List IdRow) (id : Int) : Option String :=
  ((all_ids.filter (fun r => r.id == id)).map (fun r => r.name)).head?

/-- `"".join(x[0].lower() for x in self.user.split())`. -/
def get_initials (user : String) : String :=
  String.join (((user.split Char.isWhitespace).filter (fun w => w ≠ "")).map
    (fun w => String.mk ((w.data.take 1).map Char.toLower)))

/-! ### Dataset Catalog (`initialize_datasets`) -/

/-- `x.glob(pat)` for the star-prefixed suffix patterns the module uses
(`*_rec.mrc`, `*.mdoc`): files whose name ends with the pattern's tail.
A non-directory entry yields no matches. -/
def globFiles (x : DirEntry) (pat : String) : List MFile :=
  if x.isDir then x.files.filter (fun f => strEndsWith f.name (pat.drop 1)) else []

/-- `[x for x in proc_dir.iterdir() if x.is_dir and list(x.glob(EXT))]`.
`EXT` is only evaluated when the comprehension tests at least one entry;
on an empty directory an unbound `EXT` goes unnoticed. -/
def get_procdirs (ext? : Option String) (entries : List DirEntry) :
    Except Err (List DirEntry) :=
  match entries with
  | [] => Except.ok []
  | _ :: _ =>
    match ext? with
    | none => Except.error (Err.nameError "EXT")
    | some ext =>
      Except.ok (entries.filter (fun x => !(globFiles x ext).isEmpty))

/-- `[x for d in dirs for x in list(d.glob('*.mdoc'))]`. -/
def get_mdocs (dirs : List DirEntry) : List MFile :=
  dirs.flatMap (fun d => globFiles d "*.mdoc")

/-- `len(list(self.db_dir.glob(f'{e}*')))`: repository entries whose name
starts with the candidate id. -/
def dbCount (dbEntries : List String) (e : String) : Nat :=
  (dbEntries.filter (fun nm => strStartsWith nm e)).length

/-- One pass of the suffix loop: `for i, e in enumerate(all_entry_ids, off):
all_entry_ids[i-off] = f"{e}-{i+1}"`.  Position `j` is read before it is
written, so the pass maps position `j` to `e ++ "-" ++ str(j + off + 1)`. -/
def suffix_pass (i : Nat) : List String → List String
  | [] => []
  | e :: rest => (e ++ "-" ++ Nat.repr (i + 1)) :: suffix_pass (i + 1) rest

/-- The outer loop `for entry_id in num_entries:` — one full `suffix_pass`
over the whole id list per distinct candidate id.  The insertion order of
`list(set(...))` is unspecified in Python; the model enumerates the distinct
candidates in one admissible order (`List.dedup`). -/
def assign_entry_ids (uniqueIds : List String) (count : String → Nat)
    (ids : List String) : List String :=
  uniqueIds.foldl (fun acc k => suffix_pass (count k) acc) ids

/-- The record table (`pl.DataFrame`), stored column-wise exactly as built. -/
structure Table where
  id : List String
  dataset : List String
  mdoc : List String
  date : List String
deriving Repr, DecidableEq

/-- `initialize_datasets`: existence check, directory/mdoc enumeration, id
assignment, the chained length `assert`, then the DataFrame — `dataset` and
`mdoc` columns are sorted, `id` and `date` are not. -/
def initialize_datasets (g : Globals) (fs : FS) : Except Err Table :=
  if fs.procDirExists = false then Except.error Err.invalidDirectory
  else
    match get_procdirs g.EXT fs.entries with
    | Except.error e => Except.error e
    | Except.ok dirs =>
      let mdocs := get_mdocs dirs
      let dates := mdocs.map (fun m => m.date)
      let dataset_names := dirs.map (fun d => d.name)
      let mdoc_names := mdocs.map (fun m => m.name)
      let all0 := dates.map (fun d => g.initials ++ d)
      let ids := assign_entry_ids all0.dedup (dbCount fs.dbEntries) all0
      if dates.length = dataset_names.length ∧
          dataset_names.length = mdoc_names.length ∧
          mdoc_names.length = ids.length then
        Except.ok ⟨ids, pySort dataset_names, pySort mdoc_names, dates⟩
      else
        Except.error Err.assertionError

/-! ### Completion Detector (`watch_for_completion`)

Per-log classification: count the lines whose rstripped text contains each
marker, then `status = -1 if num_abort > 1 or num_error > 0 else 0 if
num_success == 1 else 1`; a status `< 1` records `completed`/`error`. -/

/-- The counting loop over one log's lines: `(num_error, num_abort,
num_success)`. -/
def markStep (acc : Nat × Nat × Nat) (line : String) : Nat × Nat × Nat :=
  let sl := rstrip line
  (acc.1 + (if containsSub "ERROR" sl then 1 else 0),
   acc.2.1 + (if containsSub "ABORT" sl then 1 else 0),
   acc.2.2 + (if containsSub "SUCCESSFULLY COMPLETED" sl then 1 else 0))

def countMarkers (lines : List String) : Nat × Nat × Nat :=
  lines.foldl markStep (0, 0, 0)

/-- `-1` for error, `0` for success, `1` for ongoing. -/
def logStatus (lines : List String) : Int :=
  let c := countMarkers lines
  if c.2.1 > 1 ∨ c.1 > 0 then -1 else if c.2.2 = 1 then 0 else 1

/-- The state recorded in `self.completed` for this log, if any
(`none` = still running, nothing recorded). -/
def classify_log (lines : List String) : Option String :=
  if logStatus lines < 1 then
    some (if logStatus lines = 0 then "completed" else "error")
  else none

/-! ### Transfer Engine (`transfer`, `_transfer_rawframes`, `_transfer_dataset`)

Effects are collected as a trace of `Action`s; `subprocess.Popen(cmd,
shell=True)` raises `TypeError` unless `cmd` is a string, which matters
because `_transfer_rawframes` returns an `int` on its failure paths. -/

/-- Observable side effects of a transfer run. -/
inductive Action where
  | runCmd (cmd : String)
  | popen (cmd : String)
  | logExtError (ext : String)
  | warnNoTiffMdocs
  | warnNoSubframePath (dataset : String)
  | logTransferError (id : String) (code : Int)
  | logMoveError (dataset : String) (code : Int)
deriving Repr, DecidableEq

/-- A Python value that is either an `int` or a `str` — the (annotated `->
str` but in fact mixed) return type of `_transfer_rawframes`. -/
abbrev PyVal : Type := Sum Int String

/-- `subprocess.Popen(cmd, shell=True)`: `TypeError` on a non-string
argument, otherwise the spawned command. -/
def popenPy (v : PyVal) : Except Err String :=
  match v with
  | Sum.inl _ => Except.error Err.typeError
  | Sum.inr s => Except.ok s

/-- Result of the `SubFramePath` parsing loop: early `return 1` on an
unrecognized extension, else the accumulated frame files and tiff mdocs. -/
inductive ParseOut where
  | bad (ext : String)
  | done (files : List String) (tiffmdocs : List String)
deriving Repr, DecidableEq

/-- The `for line in f:` loop of `_transfer_rawframes`: each line containing
`SubFramePath` contributes `{subframe_path}/{file}`; `.mrc` directly,
`.tiff`/`.tif` with its companion `{file}.mdoc` when that opens; any other
extension logs and returns `1` immediately. -/
def parse_subframes (fs : FS) (sp : String) : List String → ParseOut
  | [] => ParseOut.done [] []
  | line :: rest =>
    if containsSub "SubFramePath" line then
      let file := (pySplitC (Char.ofNat 92) (rstrip line)).getLastD ""
      let ext := (pySplitC '.' file).getLastD ""
      if ext = "mrc" then
        match parse_subframes fs sp rest with
        | ParseOut.bad e => ParseOut.bad e
        | ParseOut.done fl tl => ParseOut.done ((sp ++ "/" ++ file) :: fl) tl
      else if ext = "tiff" ∨ ext = "tif" then
        let tiffmdoc := file ++ ".mdoc"
        match parse_subframes fs sp rest with
        | ParseOut.bad e => ParseOut.bad e
        | ParseOut.done fl tl =>
          ParseOut.done ((sp ++ "/" ++ file) :: fl)
            (if fs.tiffMdocReadable tiffmdoc then tiffmdoc :: tl else tl)
      else ParseOut.bad ext
    else parse_subframes fs sp rest

/-- `_transfer_rawframes`: precondition check on the subframe directory, the
`mkdir` of the `Frames` target (whose failing exit code is returned as an
`int`), the mdoc parse, and the final `rsync` command string. -/
def transfer_rawframes (fs : FS) (sp transfer_path mdocPath mkdirCmd : String) :
    List Action × Except Err PyVal :=
  if fs.subframeDirExists = false then ([], Except.error Err.invalidDirectory)
  else
    let tr0 := [Action.runCmd mkdirCmd]
    if fs.exitCode mkdirCmd ≠ 0 then
      (tr0, Except.ok (Sum.inl (fs.exitCode mkdirCmd)))
    else
      match fs.readLines mdocPath with
      | none => (tr0, Except.error Err.fileNotFound)
      | some lines =>
        match parse_subframes fs sp lines with
        | ParseOut.bad ext => (tr0 ++ [Action.logExtError ext], Except.ok (Sum.inl 1))
        | ParseOut.done files tms =>
          let warn := if tms.isEmpty then [Action.warnNoTiffMdocs] else []
          (tr0 ++ warn,
           Except.ok (Sum.inr ("rsync --ignore-existing -a " ++
             " ".intercalate files ++ " " ++ " ".intercalate tms ++ " " ++
             transfer_path)))

/-- The `--exclude` entries of the dataset `rsync`, with the extra `ali`
entry spliced between `origcoms` and `*_preali.mrc` when present. -/
def transfer_dataset_excludes (ali : String) : List String :=
  if ali = "" then
    ["*~", "*.log*", "*.adoc", "dfltcoms", "origcoms",
     "*_preali.mrc", "*_full_rec.mrc", "*.out"]
  else
    ["*~", "*.log*", "*.adoc", "dfltcoms", "origcoms", ali,
     "*_preali.mrc", "*_full_rec.mrc", "*.out"]

/-- `ali = max(ali_files).name if len(ali_files) > 1 else ""` (for files of
one directory, `max` over paths is `max` over names). -/
def ali_exclusion (ali_files : List String) : String :=
  if ali_files.length > 1 then pyMaxStr ali_files else ""

/-- `_transfer_dataset`: existence precondition, the `*_ali.mrc` special
case, and the `rsync` command string. -/
def transfer_dataset (fs : FS) (transfer_path dataset_dir : String) :
    Except Err String :=
  if fs.datasetDirExists dataset_dir = false then
    Except.error Err.invalidDirectory
  else
    let ali := ali_exclusion (fs.aliFiles dataset_dir)
    Except.ok ("rsync --ignore-existing -a --exclude=\x7b" ++
      ",".intercalate ((transfer_dataset_excludes ali).map
        (fun s => "\x27" ++ s ++ "\x27")) ++
      "\x7d " ++ dataset_dir ++ "/ " ++ transfer_path)

/-- One row of the catalog DataFrame, as returned by
`df.row(by_predicate=..., named=True)`. -/
structure Row where
  id : String
  dataset : String
  mdoc : String
  date : String
deriving Repr, DecidableEq

/-- `self.df.row(by_predicate=(pl.col('dataset') == dataset), named=True)`:
filter on the `dataset` column, pair the other columns by row index; raises
`NoRowsReturnedError` / `TooManyRowsReturnedError` off the single-row case. -/
def dfRow (t : Table) (name : String) : Except Err Row :=
  match (List.range t.dataset.length).filter
      (fun i => t.dataset.getD i "" == name) with
  | [] => Except.error Err.noRowsReturned
  | [i] => Except.ok ⟨t.id.getD i "", t.dataset.getD i "",
      t.mdoc.getD i "", t.date.getD i ""⟩
  | _ => Except.error Err.tooManyRowsReturned

/-- The body of `transfer`'s per-dataset loop.  Returns the names appended to
`self.not_processed`, the emitted actions, and `ok` to continue with the next
dataset or `error` for an uncaught exception that aborts the whole call. -/
def processDataset (g : Globals) (fs : FS) (proc_dir : String)
    (subframe_path : Option String) (t : Table) (name : String) :
    List String × List Action × Except Err Unit :=
  match dfRow t name with
  | Except.error Err.noRowsReturned => ([name], [], Except.ok ())
  | Except.error e => ([], [], Except.error e)
  | Except.ok row =>
    match g.DOSE_FRACTIONS with
    | none => ([], [], Except.error (Err.nameError "DOSE_FRACTIONS"))
    | some dose =>
      let step1 : List Action × Except Err (Option String) :=
        if dose ≠ 0 then
          match subframe_path with
          | some sp =>
            let framesPath := g.db_dir ++ "/" ++ row.id ++ "/Frames"
            let mdocPath := proc_dir ++ "/" ++ row.dataset ++ "/" ++ row.mdoc
            let r := transfer_rawframes fs sp framesPath mdocPath
              ("mkdir -p " ++ framesPath)
            match r.2 with
            | Except.error e => (r.1, Except.error e)
            | Except.ok v =>
              match popenPy v with
              | Except.error e => (r.1, Except.error e)
              | Except.ok cmd => (r.1 ++ [Action.popen cmd], Except.ok (some cmd))
          | none => ([Action.warnNoSubframePath name], Except.ok none)
        else ([], Except.ok none)
      match step1.2 with
      | Except.error e => ([], step1.1, Except.error e)
      | Except.ok framesCmd? =>
        let dataset_dir := proc_dir ++ "/" ++ row.dataset
        match transfer_dataset fs (g.db_dir ++ "/" ++ row.id) dataset_dir with
        | Except.error e => ([], step1.1, Except.error e)
        | Except.ok cmdDataset =>
          let tr2 := step1.1 ++ [Action.popen cmdDataset]
          let tr3 := tr2 ++
            (match framesCmd? with
             | some c =>
               if fs.exitCode c ≠ 0 then
                 [Action.logTransferError row.id (fs.exitCode c)]
               else []
             | none => [])
          let tr4 := tr3 ++
            (if fs.exitCode cmdDataset ≠ 0 then
               [Action.logTransferError row.id (fs.exitCode cmdDataset)]
             else [])
          let mv := "mv " ++ dataset_dir ++ " " ++ proc_dir ++ "/swbrt_" ++
            row.dataset ++ "*.log " ++ proc_dir ++ "/Done"
          let tr5 := tr4 ++ [Action.runCmd mv] ++
            (if fs.exitCode mv ≠ 0 then
               [Action.logMoveError row.dataset (fs.exitCode mv)]
             else [])
          ([], tr5, Except.ok ())

/-- `for dataset in sorted(self.completed): ...` — sequential, stopping only
on an uncaught exception. -/
def transferLoop (g : Globals) (fs : FS) (proc_dir : String)
    (subframe_path : Option String) (t : Table) :
    List String → List String × List Action × Except Err Unit
  | [] => ([], [], Except.ok ())
  | n :: rest =>
    let r := processDataset g fs proc_dir subframe_path t n
    match r.2.2 with
    | Except.error e => (r.1, r.2.1, Except.error e)
    | Except.ok _ =>
      let r2 := transferLoop g fs proc_dir subframe_path t rest
      (r.1 ++ r2.1, r.2.1 ++ r2.2.1, r2.2.2)

/-- `transfer`: existence precondition, `mkdir -p {done_dir}`, then the loop
over the sorted completed-dataset names. -/
def transfer (g : Globals) (fs : FS) (proc_dir : String)
    (subframe_path : Option String) (t : Table) (completed : List String) :
    List String × List Action × Except Err Unit :=
  if fs.procDirExists = false then ([], [], Except.error Err.invalidDirectory)
  else
    let r := transferLoop g fs proc_dir subframe_path t (pySort completed)
    (r.1, Action.runCmd ("mkdir -p " ++ proc_dir ++ "/Done") :: r.2.1, r.2.2)

/-! ### Claim theorems -/

/-- C7: resolving a numeric id against the identifier table fails
(`NotFoundError`, i.e. the `[0]` index on an empty comprehension raises) when
no row matches, and returns a matching row's display name when one does. -/
theorem claim_C7 (all_ids : List IdRow) (id : Int) :
    ((∀ r ∈ all_ids, r.id ≠ id) → get_user all_ids id = none) ∧
    ((∃ r ∈ all_ids, r.id = id) →
      ∃ r ∈ all_ids, r.id = id ∧ get_user all_ids id = some r.name) := by
  constructor
  · intro h
    have hnil : all_ids.filter (fun r => r.id == id) = [] := by
      rw [List.filter_eq_nil_iff]
      intro r hr
      simpa using h r hr
    simp [get_user, hnil]
  · rintro ⟨r0, hr0, hid⟩
    match hfl : all_ids.filter (fun r => r.id == id) with
    | [] =>
      exfalso
      have : r0 ∈ all_ids.filter (fun r => r.id == id) :=
        List.mem_filter.mpr ⟨hr0, by simp [hid]⟩
      rw [hfl] at this
      exact absurd this (List.not_mem_nil r0)
    | r :: rs =>
      have hrmem : r ∈ all_ids.filter (fun r => r.id == id) := by
        rw [hfl]; exact List.mem_cons_self r rs
      have hr := List.mem_filter.mp hrmem
      refine ⟨r, hr.1, by simpa using hr.2, ?_⟩
      simp [get_user, hfl]

theorem claim_C7_witness :
    (get_user [IdRow.mk 3 "Jane Doe"] 5 = none) ∧
    (∃ r ∈ [IdRow.mk 3 "Jane Doe"], r.id = 3 ∧
      get_user [IdRow.mk 3 "Jane Doe"] 3 = some r.name) :=
  ⟨(claim_C7 [IdRow.mk 3 "Jane Doe"] 5).1 (by decide),
   (claim_C7 [IdRow.mk 3 "Jane Doe"] 3).2 ⟨IdRow.mk 3 "Jane Doe", by decide, rfl⟩⟩

/-- C6: a nonexistent processing directory makes both `initialize_datasets`
and `transfer` raise `ValueError` at once — no catalog row is built, no
action (copy/move) is emitted, and nothing in either function retries. -/
theorem claim_C6 (g : Globals) (fs : FS) (pd : String) (sp : Option String)
    (t : Table) (completed : List String) (h : fs.procDirExists = false) :
    initialize_datasets g fs = Except.error Err.invalidDirectory ∧
    transfer g fs pd sp t completed = ([], [], Except.error Err.invalidDirectory) := by
  constructor
  · simp [initialize_datasets, h]
  · simp [transfer, h]

theorem claim_C6_witness :
    (FS.mk false [] [] false (fun _ => none) (fun _ => false) (fun _ => false)
      (fun _ => []) (fun _ => 0)).procDirExists = false ∧
    initialize_datasets (Globals.mk "mm" "/db" none none)
      (FS.mk false [] [] false (fun _ => none) (fun _ => false) (fun _ => false)
        (fun _ => []) (fun _ => 0)) = Except.error Err.invalidDirectory ∧
    transfer (Globals.mk "mm" "/db" none none)
      (FS.mk false [] [] false (fun _ => none) (fun _ => false) (fun _ => false)
        (fun _ => []) (fun _ => 0)) "/p" none (Table.mk [] [] [] []) [] =
      ([], [], Except.error Err.invalidDirectory) :=
  ⟨rfl,
   (claim_C6 (Globals.mk "mm" "/db" none none) _ "/p" none (Table.mk [] [] [] [])
     [] rfl).1,
   (claim_C6 (Globals.mk "mm" "/db" none none) _ "/p" none (Table.mk [] [] [] [])
     [] rfl).2⟩

/-- C5: a completed dataset name with no matching catalog row is appended to
`not_processed`, contributes no action (no copy, no move), does not abort,
and the loop continues with the remaining names exactly as before; a
`transfer` call whose only completed dataset is such a name returns normally
with the name recorded and only the `done`-directory `mkdir` issued. -/
theorem claim_C5 (g : Globals) (fs : FS) (pd : String) (sp : Option String)
    (t : Table) (name : String) (rest : List String)
    (h : dfRow t name = Except.error Err.noRowsReturned) :
    processDataset g fs pd sp t name = ([name], [], Except.ok ()) ∧
    transferLoop g fs pd sp t (name :: rest) =
      (name :: (transferLoop g fs pd sp t rest).1,
       (transferLoop g fs pd sp t rest).2.1,
       (transferLoop g fs pd sp t rest).2.2) ∧
    (fs.procDirExists = true →
      transfer g fs pd sp t [name] =
        ([name], [Action.runCmd ("mkdir -p " ++ pd ++ "/Done")],
         Except.ok ())) := by
  have h1 : processDataset g fs pd sp t name = ([name], [], Except.ok ()) := by
    simp [processDataset, h]
  refine ⟨h1, ?_, ?_⟩
  · simp [transferLoop, h1]
  · intro hp
    have hsort : pySort [name] = [name] := rfl
    simp [transfer, hp, hsort, transferLoop, h1]

theorem claim_C5_witness :
    dfRow (Table.mk ["i"] ["B"] ["m"] ["d"]) "A" = Except.error Err.noRowsReturned ∧
    processDataset (Globals.mk "mm" "/db" none none)
      (FS.mk true [] [] false (fun _ => none) (fun _ => false) (fun _ => false)
        (fun _ => []) (fun _ => 0)) "/p" none
      (Table.mk ["i"] ["B"] ["m"] ["d"]) "A" = (["A"], [], Except.ok ()) ∧
    transfer (Globals.mk "mm" "/db" none none)
      (FS.mk true [] [] false (fun _ => none) (fun _ => false) (fun _ => false)
        (fun _ => []) (fun _ => 0)) "/p" none
      (Table.mk ["i"] ["B"] ["m"] ["d"]) ["A"] =
      (["A"], [Action.runCmd "mkdir -p /p/Done"], Except.ok ()) :=
  ⟨by decide,
   (claim_C5 (Globals.mk "mm" "/db" none none)
     (FS.mk true [] [] false (fun _ => none) (fun _ => false) (fun _ => false)
       (fun _ => []) (fun _ => 0)) "/p" none
     (Table.mk ["i"] ["B"] ["m"] ["d"]) "A" [] (by decide)).1,
   (claim_C5 (Globals.mk "mm" "/db" none none)
     (FS.mk true [] [] false (fun _ => none) (fun _ => false) (fun _ => false)
       (fun _ => []) (fun _ => 0)) "/p" none
     (Table.mk ["i"] ["B"] ["m"] ["d"]) "A" [] (by decide)).2.2 rfl⟩

/-- C4 failing input: a catalog of two completed datasets, where dataset `A`'s
descriptor references a frame `frame1.eer` with an unrecognized extension and
dataset `B`'s descriptor is unproblematic. -/
def fsC4 : FS :=
  FS.mk true [] [] true
    (fun p =>
      if p = "/proc/A/A.mdoc" then some ["SubFramePath = X:\\f\\frame1.eer"]
      else if p = "/proc/B/B.mdoc" then some ["SubFramePath = X:\\f\\frame2.mrc"]
      else none)
    (fun _ => false) (fun _ => true) (fun _ => []) (fun _ => 0)

def gC4 : Globals := Globals.mk "mm" "/db" (some "*_rec.mrc") (some 1)

def tC4 : Table :=
  Table.mk ["id-A", "id-B"] ["A", "B"] ["A.mdoc", "B.mdoc"] ["d", "d"]

/-- C4 (code bug): on an unrecognized frame extension, `_transfer_rawframes`
logs the error but returns the `int` `1` (despite its `-> str` annotation and
docstring); `transfer` hands that `int` to `subprocess.Popen(..., shell=True)`,
which raises `TypeError`.  The uncaught exception aborts the whole batch:
dataset `A` gets no dataset-copy and no move, and dataset `B` is never
processed — contradicting the claim that such failures abort only that
dataset's frame-transfer step. -/
theorem claim_C4_bug :
    (transfer_rawframes fsC4 "/sub" "/db/id-A/Frames" "/proc/A/A.mdoc"
        "mkdir -p /db/id-A/Frames").2 = Except.ok (Sum.inl 1) ∧
    transfer gC4 fsC4 "/proc" (some "/sub") tC4 ["A", "B"] =
      ([],
       [Action.runCmd "mkdir -p /proc/Done",
        Action.runCmd "mkdir -p /db/id-A/Frames",
        Action.logExtError "eer"],
       Except.error Err.typeError) := by
  constructor
  · decide
  · decide

/-- Raw-line marker counts of one log file. -/
def errorCount (lines : List String) : Nat :=
  lines.countP (fun l => decide (containsSub "ERROR" l))

def abortCount (lines : List String) : Nat :=
  lines.countP (fun l => decide (containsSub "ABORT" l))

def successCount (lines : List String) : Nat :=
  lines.countP (fun l => decide (containsSub "SUCCESSFULLY COMPLETED" l))

theorem markStep_eq (acc : Nat × Nat × Nat) (l : String) :
    markStep acc l =
      (acc.1 + (if containsSub "ERROR" l then 1 else 0),
       acc.2.1 + (if containsSub "ABORT" l then 1 else 0),
       acc.2.2 + (if containsSub "SUCCESSFULLY COMPLETED" l then 1 else 0)) := by
  have h1 : containsSub "ERROR" (rstrip l) ↔ containsSub "ERROR" l :=
    containsSub_rstrip (q := "ERRO".data) (d := 'R') (by decide) (by decide) l
  have h2 : containsSub "ABORT" (rstrip l) ↔ containsSub "ABORT" l :=
    containsSub_rstrip (q := "ABOR".data) (d := 'T') (by decide) (by decide) l
  have h3 : containsSub "SUCCESSFULLY COMPLETED" (rstrip l) ↔
      containsSub "SUCCESSFULLY COMPLETED" l :=
    containsSub_rstrip (q := "SUCCESSFULLY COMPLETE".data) (d := 'D')
      (by decide) (by decide) l
  simp only [markStep]
  rw [if_congr h1 rfl rfl, if_congr h2 rfl rfl, if_congr h3 rfl rfl]

theorem countMarkers_eq (lines : List String) :
    countMarkers lines = (errorCount lines, abortCount lines, successCount lines) := by
  suffices h : ∀ (ls : List String) (acc : Nat × Nat × Nat),
      ls.foldl markStep acc =
        (acc.1 + errorCount ls, acc.2.1 + abortCount ls, acc.2.2 + successCount ls) by
    have := h lines (0, 0, 0)
    simpa [countMarkers] using this
  intro ls
  induction ls with
  | nil => intro acc; simp [errorCount, abortCount, successCount]
  | cons l ls ih =>
    intro acc
    rw [List.foldl_cons, ih (markStep acc l), markStep_eq]
    simp only [errorCount, abortCount, successCount, List.countP_cons,
      decide_eq_true_eq, Prod.mk.injEq]
    refine ⟨?_, ?_, ?_⟩
    · by_cases hc : containsSub "ERROR" l <;> simp [hc] <;> omega
    · by_cases hc : containsSub "ABORT" l <;> simp [hc] <;> omega
    · by_cases hc : containsSub "SUCCESSFULLY COMPLETED" l <;> simp [hc] <;> omega

/-- C2: classification of one pipeline log.  With `E`/`A`/`S` the counts of
lines containing `ERROR`/`ABORT`/`SUCCESSFULLY COMPLETED`: `error` iff
`A > 1 ∨ E > 0`; `completed` iff `S = 1` and not error; otherwise nothing is
recorded.  In particular one success line plus one error line is `error`, and
two aborts with no success line is `error`. -/
theorem claim_C2 (lines : List String) :
    (classify_log lines = some "error" ↔
      1 < abortCount lines ∨ 0 < errorCount lines) ∧
    (classify_log lines = some "completed" ↔
      successCount lines = 1 ∧
        ¬(1 < abortCount lines ∨ 0 < errorCount lines)) ∧
    (classify_log lines = none ↔
      successCount lines ≠ 1 ∧
        ¬(1 < abortCount lines ∨ 0 < errorCount lines)) ∧
    (successCount lines = 1 → errorCount lines = 1 →
      classify_log lines = some "error") ∧
    (2 ≤ abortCount lines → successCount lines = 0 →
      classify_log lines = some "error") := by
  have hcm := countMarkers_eq lines
  by_cases hE : 1 < abortCount lines ∨ 0 < errorCount lines
  · have hs : logStatus lines = -1 := by
      simp only [logStatus, hcm]
      rw [if_pos (by simpa using hE)]
    have hc : classify_log lines = some "error" := by
      rw [classify_log, hs]
      norm_num
    refine ⟨by simp [hc, hE], by simp [hc, hE], by simp [hc, hE], ?_, ?_⟩
    · intro _ _; exact hc
    · intro _ _; exact hc
  · by_cases hS : successCount lines = 1
    · have hs : logStatus lines = 0 := by
        simp only [logStatus, hcm]
        rw [if_neg (by simpa using hE), if_pos (by simpa using hS)]
      have hc : classify_log lines = some "completed" := by
        rw [classify_log, hs]
        norm_num
      refine ⟨by simp [hc, hE], by simp [hc, hS, hE], by simp [hc, hS], ?_, ?_⟩
      · intro _ hErr
        exact absurd (Or.inr (by omega)) hE
      · intro hA _
        exact absurd (Or.inl (by omega)) hE
    · have hs : logStatus lines = 1 := by
        simp only [logStatus, hcm]
        rw [if_neg (by simpa using hE), if_neg (by simpa using hS)]
      have hc : classify_log lines = none := by
        rw [classify_log, hs]
        norm_num
      refine ⟨by simp [hc, hE], by simp [hc, hS], by simp [hc, hS, hE], ?_, ?_⟩
      · intro hSucc _
        exact absurd hSucc hS
      · intro hA _
        exact absurd (Or.inl (by omega)) hE

theorem claim_C2_witness :
    classify_log ["a ERROR b", "SUCCESSFULLY COMPLETED"] = some "error" ∧
    classify_log ["ABORT one", "ABORT two"] = some "error" :=
  ⟨(claim_C2 ["a ERROR b", "SUCCESSFULLY COMPLETED"]).2.2.2.1 (by decide) (by decide),
   (claim_C2 ["ABORT one", "ABORT two"]).2.2.2.2 (by decide) (by decide)⟩

theorem lexLt_irrefl : ∀ l : List Char, lexLt l l = false := by
  intro l
  induction l with
  | nil => rfl
  | cons a as ih => simp [lexLt, ih]

theorem char_eq_of_toNat {x y : Char} (h : x.toNat = y.toNat) : x = y :=
  Char.eq_of_val_eq (UInt32.toNat.inj h)

theorem lexLt_cons (x y : Char) (xs ys : List Char) :
    lexLt (x :: xs) (y :: ys) = true ↔
      x.toNat < y.toNat ∨ (x = y ∧ lexLt xs ys = true) := by
  by_cases h1 : x.toNat < y.toNat
  · simp only [lexLt, if_pos h1]
    simp [h1]
  · by_cases h2 : y.toNat < x.toNat
    · simp only [lexLt, if_neg h1, if_pos h2]
      constructor
      · intro h; exact Bool.noConfusion h
      · rintro (hlt | ⟨rfl, _⟩)
        · exact absurd hlt h1
        · exact absurd h2 (Nat.lt_irrefl _)
    · have hxy : x = y := char_eq_of_toNat (by omega)
      simp only [lexLt, if_neg h1, if_neg h2]
      constructor
      · intro h; exact Or.inr ⟨hxy, h⟩
      · rintro (hlt | ⟨_, h⟩)
        · exact absurd hlt h1
        · exact h

theorem lexLt_trans : ∀ a b c : List Char,
    lexLt a b = true → lexLt b c = true → lexLt a c = true := by
  intro a
  induction a with
  | nil =>
    intro b c hab hbc
    cases b with
    | nil => exact absurd hab (by simp [lexLt])
    | cons y ys =>
      cases c with
      | nil => exact absurd hbc (by simp [lexLt])
      | cons z zs => simp [lexLt]
  | cons x xs ih =>
    intro b c hab hbc
    cases b with
    | nil => exact absurd hab (by simp [lexLt])
    | cons y ys =>
      cases c with
      | nil => exact absurd hbc (by simp [lexLt])
      | cons z zs =>
        rw [lexLt_cons] at hab hbc ⊢
        rcases hab with hab | ⟨rfl, hab⟩ <;> rcases hbc with hbc | ⟨rfl, hbc⟩
        · exact Or.inl (by omega)
        · exact Or.inl hab
        · exact Or.inl hbc
        · exact Or.inr ⟨rfl, ih ys zs hab hbc⟩

theorem lexLt_eq_of_not : ∀ a b : List Char,
    lexLt a b = false → lexLt b a = false → a = b := by
  intro a
  induction a with
  | nil =>
    intro b hab _
    cases b with
    | nil => rfl
    | cons y ys => exact absurd hab (by simp [lexLt])
  | cons x xs ih =>
    intro b hab hba
    cases b with
    | nil => exact absurd hba (by simp [lexLt])
    | cons y ys =>
      rw [Bool.eq_false_iff] at hab hba
      rw [Ne, lexLt_cons] at hab hba
      push_neg at hab hba
      have hxy : x = y := char_eq_of_toNat (by omega)
      subst hxy
      have h1 : lexLt xs ys = false := by
        cases hq : lexLt xs ys with
        | false => rfl
        | true => exact absurd hq (hab.2 rfl)
      have h2 : lexLt ys xs = false := by
        cases hq : lexLt ys xs with
        | false => rfl
        | true => exact absurd hq (hba.2 rfl)
      rw [ih ys h1 h2]

theorem strLe_refl (a : String) : strLe a a = true := by
  simp [strLe, strLt, lexLt_irrefl]

theorem strLt_asymm {a b : String} (h : strLt a b = true) :
    strLt b a = false := by
  cases hq : strLt b a with
  | false => rfl
  | true =>
    exfalso
    have := lexLt_trans a.data b.data a.data h hq
    rw [lexLt_irrefl] at this
    exact Bool.noConfusion this

theorem strLt_imp_strLe {a b : String} (h : strLt a b = true) :
    strLe a b = true := by
  rw [strLe, strLt_asymm h]
  rfl

theorem strLe_trans {a b c : String}
    (hab : strLe a b = true) (hbc : strLe b c = true) : strLe a c = true := by
  simp only [strLe, strLt, Bool.not_eq_true'] at hab hbc ⊢
  cases hq : lexLt c.data a.data with
  | false => rfl
  | true =>
    exfalso
    cases hcb : lexLt b.data c.data with
    | true =>
      have := lexLt_trans b.data c.data a.data hcb hq
      rw [hab] at this
      exact Bool.noConfusion this
    | false =>
      have heq : b.data = c.data := lexLt_eq_of_not b.data c.data hcb hbc
      rw [← heq] at hq
      rw [hab] at hq
      exact Bool.noConfusion hq

theorem strLe_pyMax2_left (a b : String) : strLe a (pyMax2 a b) = true := by
  rw [pyMax2]
  cases hq : strLt a b with
  | true => rw [if_pos rfl]; exact strLt_imp_strLe hq
  | false => rw [if_neg (by simp)]; exact strLe_refl a

theorem strLe_pyMax2_right (a b : String) : strLe b (pyMax2 a b) = true := by
  rw [pyMax2]
  cases hq : strLt a b with
  | true => rw [if_pos rfl]; exact strLe_refl b
  | false =>
    rw [if_neg (by simp)]
    simp only [strLe, Bool.not_eq_true']
    exact hq

theorem foldl_pyMax2_mem : ∀ (xs : List String) (x : String),
    xs.foldl pyMax2 x = x ∨ xs.foldl pyMax2 x ∈ xs := by
  intro xs
  induction xs with
  | nil => intro x; left; rfl
  | cons y ys ih =>
    intro x
    rw [List.foldl_cons]
    rcases ih (pyMax2 x y) with h | h
    · rw [h, pyMax2]
      split
      · right; exact List.mem_cons_self y ys
      · left; rfl
    · right; exact List.mem_cons_of_mem y h

theorem le_foldl_pyMax2 : ∀ (xs : List String) (x : String),
    strLe x (xs.foldl pyMax2 x) = true ∧
      ∀ f ∈ xs, strLe f (xs.foldl pyMax2 x) = true := by
  intro xs
  induction xs with
  | nil => intro x; exact ⟨strLe_refl x, by simp⟩
  | cons y ys ih =>
    intro x
    rw [List.foldl_cons]
    rcases ih (pyMax2 x y) with ⟨h1, h2⟩
    refine ⟨strLe_trans (strLe_pyMax2_left x y) h1, ?_⟩
    intro f hf
    rcases List.mem_cons.mp hf with rfl | hf
    · exact strLe_trans (strLe_pyMax2_right x f) h1
    · exact h2 f hf

/-- C8: in a dataset directory with more than one `*_ali.mrc` file, the
processed-data copy's exclude list contains exactly one `*_ali.mrc`-matching
entry, the lexicographically-maximal such filename; with zero or one such
file, no `*_ali.mrc` name is excluded. -/
theorem claim_C8 (ali_files : List String)
    (h : ∀ f ∈ ali_files, strEndsWith f "_ali.mrc" = true) :
    (1 < ali_files.length →
      ∃ m, m ∈ ali_files ∧ (∀ f ∈ ali_files, strLe f m = true) ∧
        (transfer_dataset_excludes (ali_exclusion ali_files)).filter
          (fun s => strEndsWith s "_ali.mrc") = [m]) ∧
    (ali_files.length ≤ 1 →
      (transfer_dataset_excludes (ali_exclusion ali_files)).filter
        (fun s => strEndsWith s "_ali.mrc") = []) := by
  constructor
  · intro hlen
    rcases ali_files with _ | ⟨x, xs⟩
    · exact absurd hlen (by simp)
    · set m := pyMaxStr (x :: xs) with hm
      have hmem : m ∈ x :: xs := by
        rw [hm, pyMaxStr]
        rcases foldl_pyMax2_mem xs x with h1 | h1
        · rw [h1]; exact List.mem_cons_self x xs
        · exact List.mem_cons_of_mem x h1
      have hge : ∀ f ∈ x :: xs, strLe f m = true := by
        intro f hf
        rcases List.mem_cons.mp hf with rfl | hf
        · exact (le_foldl_pyMax2 xs f).1
        · exact (le_foldl_pyMax2 xs x).2 f hf
      have hends : strEndsWith m "_ali.mrc" = true := h m hmem
      have hne : m ≠ "" := by
        intro hq
        rw [hq] at hends
        exact absurd hends (by decide)
      refine ⟨m, hmem, hge, ?_⟩
      have hexc : ali_exclusion (x :: xs) = m := by
        rw [ali_exclusion, if_pos hlen]
      rw [hexc, transfer_dataset_excludes, if_neg hne]
      rw [show ["*~", "*.log*", "*.adoc", "dfltcoms", "origcoms", m,
        "*_preali.mrc", "*_full_rec.mrc", "*.out"] =
        ["*~", "*.log*", "*.adoc", "dfltcoms", "origcoms"] ++ m ::
        ["*_preali.mrc", "*_full_rec.mrc", "*.out"] from rfl]
      have hA : List.filter (fun s => strEndsWith s "_ali.mrc")
          ["*~", "*.log*", "*.adoc", "dfltcoms", "origcoms"] = [] := by decide
      have hB : List.filter (fun s => strEndsWith s "_ali.mrc")
          ["*_preali.mrc", "*_full_rec.mrc", "*.out"] = [] := by decide
      rw [List.filter_append, hA, List.filter_cons, if_pos hends, hB]
      rfl
  · intro hlen
    have hexc : ali_exclusion ali_files = "" := by
      rw [ali_exclusion, if_neg (by omega)]
    rw [hexc]
    decide

theorem claim_C8_witness :
    (∃ m, m ∈ ["b_ali.mrc", "a_ali.mrc"] ∧
      (∀ f ∈ ["b_ali.mrc", "a_ali.mrc"], strLe f m = true) ∧
      (transfer_dataset_excludes (ali_exclusion ["b_ali.mrc", "a_ali.mrc"])).filter
        (fun s => strEndsWith s "_ali.mrc") = [m]) ∧
    (transfer_dataset_excludes (ali_exclusion ["a_ali.mrc"])).filter
      (fun s => strEndsWith s "_ali.mrc") = [] :=
  ⟨(claim_C8 ["b_ali.mrc", "a_ali.mrc"] (by decide)).1 (by decide),
   (claim_C8 ["a_ali.mrc"] (by decide)).2 (by decide)⟩

/-- The directories `get_procdirs` selects when `EXT` is bound. -/
def selected_dirs (fs : FS) (ext : String) : List DirEntry :=
  fs.entries.filter (fun x => !(globFiles x ext).isEmpty)

theorem get_procdirs_some (ext : String) (entries : List DirEntry) :
    get_procdirs (some ext) entries =
      Except.ok (entries.filter (fun x => !(globFiles x ext).isEmpty)) := by
  cases entries with
  | nil => rfl
  | cons e es => rfl

theorem suffix_pass_length :
    ∀ (i : Nat) (l : List String), (suffix_pass i l).length = l.length := by
  intro i l
  induction l generalizing i with
  | nil => rfl
  | cons e rest ih => simp [suffix_pass, ih]

theorem assign_entry_ids_length :
    ∀ (keys : List String) (count : String → Nat) (ids : List String),
      (assign_entry_ids keys count ids).length = ids.length := by
  intro keys
  induction keys with
  | nil => intro count ids; rfl
  | cons k ks ih =>
    intro count ids
    show (List.foldl _ (suffix_pass (count k) ids) ks).length = ids.length
    rw [show List.foldl (fun acc j => suffix_pass (count j) acc)
      (suffix_pass (count k) ids) ks =
      assign_entry_ids ks count (suffix_pass (count k) ids) from rfl]
    rw [ih count (suffix_pass (count k) ids), suffix_pass_length]

theorem initialize_datasets_reduce (g : Globals) (fs : FS) (ext : String)
    (h1 : fs.procDirExists = true) (h2 : g.EXT = some ext) :
    initialize_datasets g fs =
      (let dirs := selected_dirs fs ext
       let mdocs := get_mdocs dirs
       let dates := mdocs.map (fun m => m.date)
       let dataset_names := dirs.map (fun d => d.name)
       let mdoc_names := mdocs.map (fun m => m.name)
       let all0 := dates.map (fun d => g.initials ++ d)
       let ids := assign_entry_ids all0.dedup (dbCount fs.dbEntries) all0
       if dates.length = dataset_names.length ∧
           dataset_names.length = mdoc_names.length ∧
           mdoc_names.length = ids.length then
         Except.ok ⟨ids, pySort dataset_names, pySort mdoc_names, dates⟩
       else Except.error Err.assertionError) := by
  rw [initialize_datasets, h2, get_procdirs_some, if_neg (by simp [h1])]
  rfl

/-- C9: with the preconditions satisfied, the catalog build succeeds exactly
when the number of `*.mdoc` files across the selected directories equals the
number of selected directories; otherwise it fails on the chained length
`assert` before any record table is produced. -/
theorem claim_C9 (g : Globals) (fs : FS) (ext : String)
    (h1 : fs.procDirExists = true) (h2 : g.EXT = some ext) :
    ((∃ t, initialize_datasets g fs = Except.ok t) ↔
      (get_mdocs (selected_dirs fs ext)).length = (selected_dirs fs ext).length) ∧
    ((get_mdocs (selected_dirs fs ext)).length ≠ (selected_dirs fs ext).length →
      initialize_datasets g fs = Except.error Err.assertionError) := by
  rw [initialize_datasets_reduce g fs ext h1 h2]
  dsimp only
  by_cases hmd :
      (get_mdocs (selected_dirs fs ext)).length = (selected_dirs fs ext).length
  · rw [if_pos ?hc]
    case hc =>
      refine ⟨?_, ?_, ?_⟩
      · simpa using hmd
      · simp [hmd]
      · simp [assign_entry_ids_length]
    constructor
    · exact ⟨fun _ => hmd, fun _ => ⟨_, rfl⟩⟩
    · intro hne
      exact absurd hmd hne
  · rw [if_neg ?hc]
    case hc =>
      intro ⟨ha, hb, _⟩
      rw [List.length_map] at ha
      rw [List.length_map, List.length_map] at hb
      exact hmd (by omega)
    constructor
    · constructor
      · rintro ⟨t, ht⟩
        exact absurd ht (by simp)
      · intro h
        exact absurd h hmd
    · intro _
      rfl

theorem claim_C9_witness :
    initialize_datasets (Globals.mk "mm" "/db" (some "*_rec.mrc") (some 1))
      (FS.mk true [DirEntry.mk "A" true
        [MFile.mk "x_rec.mrc" "d", MFile.mk "a.mdoc" "d", MFile.mk "b.mdoc" "d"]]
        [] false (fun _ => none) (fun _ => false) (fun _ => false)
        (fun _ => []) (fun _ => 0)) = Except.error Err.assertionError ∧
    (∃ t, initialize_datasets (Globals.mk "mm" "/db" (some "*_rec.mrc") (some 1))
      (FS.mk true [DirEntry.mk "A" true
        [MFile.mk "x_rec.mrc" "d", MFile.mk "a.mdoc" "d"]]
        [] false (fun _ => none) (fun _ => false) (fun _ => false)
        (fun _ => []) (fun _ => 0)) = Except.ok t) :=
  ⟨(claim_C9 (Globals.mk "mm" "/db" (some "*_rec.mrc") (some 1)) _ "*_rec.mrc"
      rfl rfl).2 (by decide),
   (claim_C9 (Globals.mk "mm" "/db" (some "*_rec.mrc") (some 1)) _ "*_rec.mrc"
      rfl rfl).1.mpr (by decide)⟩

/-- Module-scope bindings when `db_transfer` is imported rather than run as
a script: `EXT` and `DOSE_FRACTIONS` are unbound. -/
def gImp : Globals := Globals.mk "mm" "/db" none none

/-- An existing, empty processing directory. -/
def fsEmptyDir : FS :=
  FS.mk true [] [] false (fun _ => none) (fun _ => false) (fun _ => false)
    (fun _ => []) (fun _ => 0)

/-- An existing processing directory with one (dataset-free) entry. -/
def fsOneEntry : FS :=
  FS.mk true [DirEntry.mk "A" true []] [] false (fun _ => none)
    (fun _ => false) (fun _ => false) (fun _ => []) (fun _ => 0)

/-- C10 counterexample: with the module imported (so `EXT` and
`DOSE_FRACTIONS` unbound), a `transfer` call whose completed map is empty
finishes normally — no undefined-name error — and `initialize_datasets` on an
existing but empty processing directory also succeeds, because the list
comprehension never evaluates `EXT`.  So "every call fails" is false. -/
theorem claim_C10_counterexample :
    transfer gImp fsEmptyDir "/proc" none (Table.mk [] [] [] []) [] =
      ([], [Action.runCmd "mkdir -p /proc/Done"], Except.ok ()) ∧
    initialize_datasets gImp fsEmptyDir = Except.ok (Table.mk [] [] [] []) := by
  constructor
  · decide
  · decide

/-- C10 amended: when the module is imported, `EXT` and `DOSE_FRACTIONS` are
unbound (neither is imported from the constants module).  Every
`initialize_datasets` call on an existing processing directory with at least
one entry raises `NameError` on `EXT` before building any record, and the
transfer loop raises `NameError` on `DOSE_FRACTIONS` as soon as it reaches a
completed dataset that has a catalog row, before issuing any copy; calls that
never evaluate the two names (empty directory, no matched completed dataset)
do not raise. -/
theorem claim_C10_amended (g : Globals) (fs : FS) (pd : String)
    (sp : Option String) (t : Table) (name : String) (rest : List String)
    (row : Row) (hE : g.EXT = none) (hD : g.DOSE_FRACTIONS = none) :
    (fs.procDirExists = true → fs.entries ≠ [] →
      initialize_datasets g fs = Except.error (Err.nameError "EXT")) ∧
    (dfRow t name = Except.ok row →
      transferLoop g fs pd sp t (name :: rest) =
        ([], [], Except.error (Err.nameError "DOSE_FRACTIONS"))) ∧
    "EXT" ∉ importedModuleNames ∧ "DOSE_FRACTIONS" ∉ importedModuleNames := by
  refine ⟨?_, ?_, by decide, by decide⟩
  · intro hp hne
    rw [initialize_datasets, if_neg (by simp [hp]), hE]
    cases hq : fs.entries with
    | nil => exact absurd hq hne
    | cons e es => rfl
  · intro hrow
    have hpd : processDataset g fs pd sp t name =
        ([], [], Except.error (Err.nameError "DOSE_FRACTIONS")) := by
      simp [processDataset, hrow, hD]
    simp [transferLoop, hpd]

theorem claim_C10_amended_witness :
    initialize_datasets gImp fsOneEntry = Except.error (Err.nameError "EXT") ∧
    transferLoop gImp fsEmptyDir "/p" none
      (Table.mk ["i"] ["A"] ["m"] ["d"]) ["A"] =
      ([], [], Except.error (Err.nameError "DOSE_FRACTIONS")) :=
  ⟨(claim_C10_amended gImp fsOneEntry "/p" none (Table.mk ["i"] ["A"] ["m"] ["d"])
      "A" [] (Row.mk "i" "A" "m" "d") rfl rfl).1 rfl (by decide),
   (claim_C10_amended gImp fsEmptyDir "/p" none (Table.mk ["i"] ["A"] ["m"] ["d"])
      "A" [] (Row.mk "i" "A" "m" "d") rfl rfl).2.1 (by decide)⟩

/-- C3 failing input: the directory iterator yields `B` (mdoc dated
2024-02-02) before `A` (mdoc dated 2024-01-01). -/
def gC3 : Globals := Globals.mk "mm" "/db" (some "*_rec.mrc") (some 1)

def fsC3 : FS :=
  FS.mk true
    [DirEntry.mk "B" true
      [MFile.mk "x_rec.mrc" "2024-02-02", MFile.mk "B.mdoc" "2024-02-02"],
     DirEntry.mk "A" true
      [MFile.mk "y_rec.mrc" "2024-01-01", MFile.mk "A.mdoc" "2024-01-01"]]
    [] false (fun _ => none) (fun _ => false) (fun _ => false)
    (fun _ => []) (fun _ => 0)

def tC3 : Table :=
  Table.mk ["mm2024-02-02-1-1", "mm2024-01-01-2-2"] ["A", "B"]
    ["A.mdoc", "B.mdoc"] ["2024-02-02", "2024-01-01"]

/-- C3 (code bug): `initialize_datasets` sorts the `dataset` and `mdoc`
columns but leaves `id` and `date` in enumeration order, so the returned
table's row 0 pairs dataset `A` with directory `B`'s date (and id), even
though every file of directory `A` is dated 2024-01-01. -/
theorem claim_C3_bug :
    initialize_datasets gC3 fsC3 = Except.ok tC3 ∧
    tC3.dataset.getD 0 "" = "A" ∧
    tC3.date.getD 0 "" = "2024-02-02" ∧
    (∀ e ∈ fsC3.entries, e.name = "A" → ∀ f ∈ e.files, f.date = "2024-01-01") ∧
    tC3.date.getD 0 "" ≠ "2024-01-01" := by
  refine ⟨by decide, by decide, by decide, by decide, by decide⟩

/-! ### C1: id disambiguation -/

/-- The claim's "final id = candidate id + exactly one numeric suffix `-k`
with `bound < k`", as a decidable check: the id starts with `{cand}-` and
everything after that is a nonempty digit run whose value exceeds `bound`. -/
def single_numeric_suffix (cand id : String) (bound : Nat) : Bool :=
  strStartsWith id (cand ++ "-") &&
    (let rest := id.data.drop (cand.data.length + 1)
     !rest.isEmpty && rest.all Char.isDigit && decide (bound < listVal rest))

theorem string_ext {s t : String} (h : s.data = t.data) : s = t := by
  cases s
  cases t
  exact congrArg String.mk h

theorem string_append_cancel_left {s t₁ t₂ : String}
    (h : s ++ t₁ = s ++ t₂) : t₁ = t₂ := by
  apply string_ext
  have hd := congrArg String.data h
  rw [String.data_append, String.data_append] at hd
  exact List.append_cancel_left hd

theorem dedup_replicate (n : Nat) (a : String) :
    (List.replicate n a).dedup = if n = 0 then [] else [a] := by
  induction n with
  | zero => rfl
  | succ n ih =>
    cases n with
    | zero => simp
    | succ m =>
      rw [List.replicate_succ,
        List.dedup_cons_of_mem (by simp [List.mem_replicate])]
      simpa using ih

theorem suffix_pass_get :
    ∀ (l : List String) (i j : Nat) (hj : j < (suffix_pass i l).length),
      (suffix_pass i l).get ⟨j, hj⟩ =
        l.get ⟨j, by rw [suffix_pass_length] at hj; exact hj⟩ ++ "-" ++
          Nat.repr (i + j + 1) := by
  intro l
  induction l with
  | nil => intro i j hj; exact absurd hj (by simp [suffix_pass])
  | cons e rest ih =>
    intro i j hj
    cases j with
    | zero => rfl
    | succ m =>
      have hm : m < (suffix_pass (i + 1) rest).length := by
        have := hj
        simp only [suffix_pass, List.length_cons] at this
        omega
      have hstep : (suffix_pass i (e :: rest)).get ⟨m + 1, hj⟩ =
          (suffix_pass (i + 1) rest).get ⟨m, hm⟩ := rfl
      rw [hstep, ih (i + 1) m hm]
      have harith : i + 1 + m + 1 = i + (m + 1) + 1 := by omega
      rw [harith]
      rfl

theorem isPre_append [DecidableEq α] : ∀ (a b : List α), isPre a (a ++ b) = true := by
  intro a b
  induction a with
  | nil => rfl
  | cons x xs ih => simp [isPre, ih]

theorem decChars_ne_nil (n : Nat) : decChars n ≠ [] := by
  rw [decChars]
  split
  · simp
  · simp

theorem digitChar_isDigit {m : Nat} (h : m < 10) :
    (Nat.digitChar m).isDigit = true := by
  interval_cases m <;> decide

theorem decChars_all_digit : ∀ n : Nat, (decChars n).all Char.isDigit = true := by
  intro n
  induction n using Nat.strong_induction_on with
  | _ n ih =>
    by_cases h10 : n < 10
    · rw [decChars, dif_pos h10]
      simp [digitChar_isDigit h10]
    · rw [decChars, dif_neg h10, List.all_append,
        ih (n / 10) (Nat.div_lt_self (by omega) (by omega))]
      simp [digitChar_isDigit (Nat.mod_lt n (by omega))]

theorem single_numeric_suffix_repr (cand : String) {k bound : Nat}
    (h : bound < k) :
    single_numeric_suffix cand (cand ++ "-" ++ Nat.repr k) bound = true := by
  have hrest : ((cand ++ "-" ++ Nat.repr k).data).drop (cand.data.length + 1) =
      decChars k := by
    rw [String.data_append]
    have hlen : (cand ++ "-").data.length = cand.data.length + 1 := by
      rw [String.data_append]
      simp
    rw [← hlen, List.drop_left, natRepr_data]
  rw [single_numeric_suffix]
  dsimp only
  rw [hrest]
  have hsw : strStartsWith (cand ++ "-" ++ Nat.repr k) (cand ++ "-") = true := by
    rw [strStartsWith, String.data_append]
    exact isPre_append _ _
  have hemp : (decChars k).isEmpty = false := by
    cases hq : decChars k with
    | nil => exact absurd hq (decChars_ne_nil k)
    | cons c cs => rfl
  rw [hsw, hemp, decChars_all_digit k]
  simp [listVal_decChars, h]

/-- C1 counterexample input: two dataset directories with different mdoc
dates (hence two distinct candidate ids), empty repository. -/
def gC1 : Globals := Globals.mk "mm" "/db" (some "*_rec.mrc") (some 1)

def fsC1 : FS :=
  FS.mk true
    [DirEntry.mk "B" true
      [MFile.mk "x_rec.mrc" "2024-02-02", MFile.mk "B.mdoc" "2024-02-02"],
     DirEntry.mk "A" true
      [MFile.mk "y_rec.mrc" "2024-01-01", MFile.mk "A.mdoc" "2024-01-01"]]
    [] false (fun _ => none) (fun _ => false) (fun _ => false)
    (fun _ => []) (fun _ => 0)

/-- C1 counterexample: the suffix loop runs once per distinct candidate id
over the whole id list, so with two candidate ids present every final id
carries two numeric suffixes: dataset `B`'s id comes out as
`mm2024-02-02-1-1`, which is not its candidate id followed by exactly one
numeric suffix (even though its repository prefix count is 0). -/
theorem claim_C1_counterexample :
    (∃ t, initialize_datasets gC1 fsC1 = Except.ok t ∧
      t.id.getD 0 "" = "mm2024-02-02-1-1") ∧
    gC1.initials ++ "2024-02-02" = "mm2024-02-02" ∧
    dbCount fsC1.dbEntries "mm2024-02-02" = 0 ∧
    single_numeric_suffix "mm2024-02-02" "mm2024-02-02-1-1" 0 = false := by
  refine ⟨⟨Table.mk ["mm2024-02-02-1-1", "mm2024-01-01-2-2"] ["A", "B"]
    ["A.mdoc", "B.mdoc"] ["2024-02-02", "2024-01-01"], by decide, by decide⟩,
    by decide, by decide, by decide⟩

theorem assign_replicate_eq (n : Nat) (cand : String) (count : String → Nat) :
    assign_entry_ids ((List.replicate n cand).dedup) count
      (List.replicate n cand) =
      suffix_pass (count cand) (List.replicate n cand) := by
  rw [dedup_replicate]
  by_cases hn0 : n = 0
  · rw [if_pos hn0, hn0]
    rfl
  · rw [if_neg hn0]
    rfl

/-- C1 amended: restricted to a catalog pass in which all selected datasets
share one candidate id (all mdoc dates equal), the final ids are pairwise
distinct and the id at position `j` is the candidate id followed by exactly
one numeric suffix `-k` with `k = count + j + 1`, strictly greater than the
number `count` of pre-existing repository entries with that prefix.  (When
several distinct candidate ids occur in one pass, the code instead appends
one suffix per distinct candidate id — see the counterexample.) -/
theorem claim_C1_amended (g : Globals) (fs : FS) (ext d : String)
    (h1 : fs.procDirExists = true) (h2 : g.EXT = some ext)
    (hdates : ∀ m ∈ get_mdocs (selected_dirs fs ext), m.date = d)
    (hcnt : (get_mdocs (selected_dirs fs ext)).length =
      (selected_dirs fs ext).length) :
    ∃ t, initialize_datasets g fs = Except.ok t ∧
      t.id.Nodup ∧
      ∀ j (hj : j < t.id.length),
        t.id.get ⟨j, hj⟩ =
          g.initials ++ d ++ "-" ++
            Nat.repr (dbCount fs.dbEntries (g.initials ++ d) + j + 1) ∧
        dbCount fs.dbEntries (g.initials ++ d) <
          dbCount fs.dbEntries (g.initials ++ d) + j + 1 ∧
        single_numeric_suffix (g.initials ++ d) (t.id.get ⟨j, hj⟩)
          (dbCount fs.dbEntries (g.initials ++ d)) = true := by
  have hdl : (get_mdocs (selected_dirs fs ext)).map (fun m => m.date) =
      List.replicate (get_mdocs (selected_dirs fs ext)).length d := by
    rw [List.eq_replicate_iff]
    refine ⟨by simp, ?_⟩
    intro b hb
    rcases List.mem_map.mp hb with ⟨m, hm, rfl⟩
    exact hdates m hm
  have hinit : initialize_datasets g fs = Except.ok (Table.mk
      (assign_entry_ids
        ((List.replicate (get_mdocs (selected_dirs fs ext)).length
          (g.initials ++ d)).dedup)
        (dbCount fs.dbEntries)
        (List.replicate (get_mdocs (selected_dirs fs ext)).length
          (g.initials ++ d)))
      (pySort ((selected_dirs fs ext).map (fun x => x.name)))
      (pySort ((get_mdocs (selected_dirs fs ext)).map (fun m => m.name)))
      (List.replicate (get_mdocs (selected_dirs fs ext)).length d)) := by
    rw [initialize_datasets_reduce g fs ext h1 h2]
    dsimp only
    rw [hdl, List.map_replicate]
    rw [if_pos ?hc]
    case hc =>
      refine ⟨?_, ?_, ?_⟩
      · simp [hcnt]
      · simp [hcnt]
      · simp [assign_entry_ids_length]
  refine ⟨_, hinit, ?_, ?_⟩
  · -- Nodup of the id column
    dsimp only
    rw [assign_replicate_eq, List.nodup_iff_injective_get]
    intro a b hab
    rw [suffix_pass_get, suffix_pass_get] at hab
    simp only [List.get_replicate] at hab
    have hr := string_append_cancel_left hab
    have hk := natRepr_injective hr
    have hv : a.val = b.val := by omega
    exact Fin.ext hv
  · -- value of each id
    dsimp only
    rw [assign_replicate_eq]
    intro j hj
    rw [suffix_pass_get]
    simp only [List.get_replicate]
    exact ⟨trivial, by omega, single_numeric_suffix_repr _ (by omega)⟩

theorem claim_C1_amended_witness :
    ∃ t, initialize_datasets
      (Globals.mk "mm" "/db" (some "*_rec.mrc") (some 1))
      (FS.mk true
        [DirEntry.mk "A" true
          [MFile.mk "x_rec.mrc" "2024-03-03", MFile.mk "A.mdoc" "2024-03-03"],
         DirEntry.mk "B" true
          [MFile.mk "y_rec.mrc" "2024-03-03", MFile.mk "B.mdoc" "2024-03-03"]]
        ["mm2024-03-03-1"] false (fun _ => none) (fun _ => false)
        (fun _ => false) (fun _ => []) (fun _ => 0)) = Except.ok t ∧
      t.id.Nodup ∧
      ∀ j (hj : j < t.id.length),
        t.id.get ⟨j, hj⟩ =
          "mm" ++ "2024-03-03" ++ "-" ++ Nat.repr
            (dbCount ["mm2024-03-03-1"] ("mm" ++ "2024-03-03") + j + 1) ∧
        dbCount ["mm2024-03-03-1"] ("mm" ++ "2024-03-03") <
          dbCount ["mm2024-03-03-1"] ("mm" ++ "2024-03-03") + j + 1 ∧
        single_numeric_suffix ("mm" ++ "2024-03-03") (t.id.get ⟨j, hj⟩)
          (dbCount ["mm2024-03-03-1"] ("mm" ++ "2024-03-03")) = true :=
  claim_C1_amended (Globals.mk "mm" "/db" (some "*_rec.mrc") (some 1)) _
    "*_rec.mrc" "2024-03-03" rfl rfl (by decide) (by decide)

end SanofiCryoET
